import Mathlib

set_option maxRecDepth 2048

/-!
Verification development for the incident-RAG engine (`rag_incidents.py`).

The Python module is shallowly embedded here:
* Python dicts with string keys are association lists (`List (String × _)`);
  `dict.get` is first-match `List.lookup`, matching Python's unique-key dicts.
* JSON values reaching `str(v)` are modelled as `Option String`
  (`none` is JSON `null` / Python `None`, `pyStr none = "None"`).
* Floats (distances, similarities, coordinates) are modelled as `ℚ`.
* External primitives from outside the repository (the Ollama HTTP endpoint,
  `hashlib.md5`, `numpy.cos`/`numpy.sin`, ChromaDB's distance metric) are
  abstracted as explicit function parameters; everything written in
  `rag_incidents.py` itself is translated line by line.
* The ChromaDB collection is a list of stored entries; `add` fails (raises)
  exactly when an id conflict exists, `upsert` replaces on conflict, which is
  the contract the module's `add`-then-`upsert` recovery path relies on.
-/

namespace Rag

/-- A Python string-keyed dict of string values (ChromaDB metadata, incident
records, CSV rows), as an association list in insertion order. -/
abbrev StrDict := List (String × String)

/-- `d.get(k, default)` on a string-valued dict. -/
def pyGet (m : StrDict) (k d : String) : String :=
  (m.lookup k).getD d

/-- A JSON object as parsed by `json.load`, values already stringified except
that `null` is kept as `none` (the code tests `v is not None`). -/
abbrev JsonItem := List (String × Option String)

/-- `item.get(k, default)` where stored values may be `null`. -/
def jGet (item : JsonItem) (k : String) (d : Option String) : Option String :=
  match item.lookup k with
  | some v => v
  | none => d

/-- Python `str` applied to a possibly-`None` value. -/
def pyStr : Option String → String
  | some s => s
  | none => "None"

/-! ## Embedding Provider (`_generate_embeddings`, remote/Ollama branch)

The HTTP endpoint is abstracted as `net : String → Option (List ℚ)`:
`net prompt = some v` models a 200 response whose body carries embedding `v`,
`net prompt = none` models a non-200 status or a raised transport
error/timeout — both code paths append the same zero vector. -/

/-- The body of the per-text loop of `_generate_embeddings`: truncate the
prompt to 2000 characters, and on any failure substitute `[0.0] * 768`. -/
def embedOne (net : String → Option (List ℚ)) (text : String) : List ℚ :=
  match net (text.take 2000) with
  | some v => v
  | none => List.replicate 768 0

/-- `_generate_embeddings(texts)` with `use_ollama = True`: the loop
`for text in texts: ... embeddings.append(...)`. -/
def generateEmbeddings (net : String → Option (List ℚ)) : List String → List (List ℚ)
  | [] => []
  | t :: ts => embedOne net t :: generateEmbeddings net ts

/-! ## Ingestion: canonical incident records (`_load_incidents_from_file`) -/

/-- An incident record: the dict built during ingestion. -/
abbrev Incident := StrDict

/-- The keys set before the extra-field loop runs, for both file formats. -/
def baseKeys : List String := ["id", "title", "description", "source", "Proyecto"]

/-- One step of the extra-field loop of the JSON branch:
`if k not in incident and v is not None: incident[k] = str(v)[:500]`. -/
def jsonExtraStep (inc : Incident) (kv : String × Option String) : Incident :=
  match kv.2 with
  | none => inc
  | some s =>
      if (inc.lookup kv.1).isSome then inc else inc ++ [(kv.1, s.take 500)]

/-- The extra-field loop of the JSON branch:
`for k, v in item.items(): ...`. -/
def addJsonExtras (base : Incident) (item : JsonItem) : Incident :=
  item.foldl jsonExtraStep base

/-- One JSON item mapped to a canonical incident record
(`_load_incidents_from_file`, JSON branch; `n` is `batch_start + idx`). -/
def jsonItemToIncident (filename : String) (n : Nat) (item : JsonItem) : Incident :=
  addJsonExtras
    [("id", pyStr (jGet item "id" (jGet item "ID"
        (jGet item "_id" (some ("json_" ++ toString n)))))),
     ("title", pyStr (jGet item "title" (jGet item "titulo"
        (jGet item "Proyecto" (jGet item "nombre" (some "Sin título")))))),
     ("description", pyStr (jGet item "description" (jGet item "descripcion"
        (jGet item "Descripción" (jGet item "desc" (some "")))))),
     ("source", filename),
     ("Proyecto", pyStr (jGet item "Proyecto" (jGet item "proyecto"
        (jGet item "project" (some "Sin proyecto")))))]
    item

/-- The extra-column loop of the CSV branch:
`for col in df.columns: if col not in incident: incident[col] = str(row[col])`
— note: no truncation is applied here. -/
def addCsvExtras (base : Incident) (cols : List String) (row : StrDict) : Incident :=
  cols.foldl
    (fun inc c =>
      if (inc.lookup c).isSome then inc
      else inc ++ [(c, (row.lookup c).getD "")])
    base

/-- One CSV row mapped to a canonical incident record
(`_load_incidents_from_file`, CSV branch; `idx` is the row index). -/
def csvRowToIncident (filename : String) (idx : Nat) (cols : List String)
    (row : StrDict) : Incident :=
  addCsvExtras
    [("id", pyGet row "id" (pyGet row "ID" ("csv_" ++ toString idx))),
     ("title", pyGet row "title" (pyGet row "titulo" (pyGet row "Proyecto" ""))),
     ("description", pyGet row "description" (pyGet row "descripcion" "")),
     ("source", filename),
     ("Proyecto", pyGet row "Proyecto" "Sin proyecto")]
    cols row

/-! ## Vector Store Adapter (ChromaDB collection) -/

/-- One stored entry of the `incidents` collection. -/
structure StoredEntry where
  eid : String
  document : String
  embedding : List ℚ
  metadata : StrDict
  deriving Repr, DecidableEq

/-- The collection's contents, in insertion order; `count()` is `length`. -/
abbrev Collection := List StoredEntry

/-- Whether an id is already present in the collection. -/
def hasId (c : Collection) (i : String) : Bool :=
  c.any (fun e => e.eid == i)

/-- `collection.add(...)`: strict semantics, raises (here: `Except.error`) when
any incoming id is already stored or the batch itself repeats an id. -/
def addEntries (c : Collection) (es : List StoredEntry) : Except Unit Collection :=
  if es.any (fun e => hasId c e.eid) then .error ()
  else if (es.map StoredEntry.eid).Nodup then .ok (c ++ es)
  else .error ()

/-- `collection.upsert` for a single entry: replace-on-conflict, else append. -/
def upsertOne (c : Collection) (e : StoredEntry) : Collection :=
  if hasId c e.eid then
    c.map (fun old => if old.eid == e.eid then e else old)
  else c ++ [e]

/-- `collection.upsert(...)` over a batch, left to right. -/
def upsert (c : Collection) (es : List StoredEntry) : Collection :=
  es.foldl upsertOne c

/-- The write step of `_add_incidents_to_db`: `try: add ... except: upsert`
— the identical batch is retried exactly once via upsert. -/
def addBatch (c : Collection) (es : List StoredEntry) : Collection :=
  match addEntries c es with
  | .ok c' => c'
  | .error _ => upsert c es

/-- `incidents[batch_start : batch_start + batch_size]` slicing,
`for batch_start in range(0, len(incidents), batch_size)`; fuel-based since
the stride is a parameter (it is 10 or 50 at both call sites). -/
def chunksAux (n : Nat) : Nat → List α → List (List α)
  | 0, _ => []
  | _, [] => []
  | fuel + 1, l => l.take n :: chunksAux n fuel (l.drop n)

/-- All batches of size `n` of a list, in order. -/
def chunks (n : Nat) (l : List α) : List (List α) :=
  chunksAux n l.length l

/-- `inc['id']` (always set by the loaders). -/
def incId (inc : Incident) : String :=
  (inc.lookup "id").getD ""

/-- The embedded document text:
`f"{inc.get('title','')} {inc.get('description','')} {inc.get('Proyecto','')}"`. -/
def docOf (inc : Incident) : String :=
  pyGet inc "title" "" ++ " " ++ pyGet inc "description" "" ++ " " ++
    pyGet inc "Proyecto" ""

/-- The metadata written for an incident: the record minus `id`. -/
def metaOf (inc : Incident) : StrDict :=
  inc.filter (fun kv => kv.1 != "id")

/-- Per-batch assembly of ids, documents, metadatas and embeddings into the
entries handed to `add`/`upsert`. -/
def mkEntries (net : String → Option (List ℚ)) (batch : List Incident) :
    List StoredEntry :=
  let documents := batch.map docOf
  let embeddings := generateEmbeddings net documents
  (batch.zip embeddings).map
    (fun p => { eid := incId p.1, document := docOf p.1, embedding := p.2,
                metadata := metaOf p.1 })

/-- The stored entry a single incident contributes (id, document text,
embedding of the document, record minus `id`); `mkEntries` is proved equal to
mapping this over the batch. -/
def toEntry (net : String → Option (List ℚ)) (inc : Incident) : StoredEntry :=
  { eid := incId inc, document := docOf inc,
    embedding := embedOne net (docOf inc), metadata := metaOf inc }

/-- `_add_incidents_to_db`: early return on an empty list, else process the
incidents in batches of 10 (Ollama) or 50 (local model), each batch written
via `add` with a single `upsert` retry on exception. -/
def addIncidentsToDb (useOllama : Bool) (net : String → Option (List ℚ))
    (c : Collection) (incidents : List Incident) : Collection :=
  if incidents.isEmpty then c
  else
    (chunks (if useOllama then 10 else 50) incidents).foldl
      (fun acc batch => addBatch acc (mkEntries net batch)) c

/-! ## Similarity Search (`search_similar`) -/

/-- One nearest-neighbor hit as returned by `collection.query`. The source
reads four parallel arrays (`ids[0][i]`, `distances[0][i]`, `documents[0][i]`,
`metadatas[0][i]`); they are modelled as one list of hits. -/
structure QueryHit where
  hid : String
  distance : ℚ
  document : String
  metadata : StrDict
  deriving Repr, DecidableEq

/-- ChromaDB `$eq` metadata filtering for a `where` clause. -/
def matchesWhere (w : Option StrDict) (e : StoredEntry) : Bool :=
  match w with
  | none => true
  | some f => f.all (fun kv => e.metadata.lookup kv.1 == some kv.2)

/-- `collection.query(query_embeddings=[emb], n_results=k, where=w)`: the
filtered entries ranked by distance to the query (the metric is the store's,
abstracted as `dist`), truncated to at most `k` hits. -/
def chromaQuery (dist : List ℚ → List ℚ → ℚ) (c : Collection) (emb : List ℚ)
    (k : Nat) (w : Option StrDict) : List QueryHit :=
  (((c.filter (matchesWhere w)).mergeSort
      (fun a b => decide (dist emb a.embedding ≤ dist emb b.embedding))).take k).map
    (fun e => { hid := e.eid, distance := dist emb e.embedding,
                document := e.document, metadata := e.metadata })

/-- `where_clause` construction: `None` stays `None`, and Python's
`if filters:` also leaves it `None` for an empty dict. -/
def whereClauseOf (filters : Option StrDict) : Option StrDict :=
  match filters with
  | none => none
  | some f => if f.isEmpty then none else some f

/-- The keys excluded from the metadata passthrough spread in
`search_similar` (lines 376–379). -/
def excludedKeys : List String :=
  ["ID", "id", "Identificador_incidencia", "Proyecto", "proyecto",
   "Fecha", "fecha", "Descripción", "descripcion", "Solución", "solucion",
   "Estado", "estado", "Prioridad", "prioridad", "source",
   "Fecha_envío_incidencia", "Descripción_incidencia"]

/-- The reconstructed display metadata of one search result: the seven
canonical fields resolved by nested `metadata.get` chains, then every stored
key not in `excludedKeys` spread through unchanged. `rid` is the hit's id and
`doc` its document text (they seed the `ID` and `Descripción` defaults). -/
def reconstructMetadata (rid doc : String) (m : StrDict) : StrDict :=
  [("ID", pyGet m "ID" (pyGet m "id" (pyGet m "Identificador_incidencia" rid))),
   ("Proyecto", pyGet m "Proyecto" (pyGet m "proyecto" "No especificado")),
   ("Fecha", pyGet m "Fecha" (pyGet m "fecha" (pyGet m "Fecha_envío_incidencia"
      (pyGet m "Fecha del incidente" "N/A")))),
   ("Descripción", pyGet m "Descripción" (pyGet m "descripcion"
      (pyGet m "Descripcion Problema" (pyGet m "Descripción_incidencia"
        (doc.take 200))))),
   ("Solución", pyGet m "Solución" (pyGet m "solucion" (pyGet m "Solucion"
      "No registrada"))),
   ("Estado", pyGet m "Estado" (pyGet m "estado" (pyGet m "status" ""))),
   ("Prioridad", pyGet m "Prioridad" (pyGet m "prioridad" (pyGet m "priority" "")))]
  ++ m.filter (fun kv => !(excludedKeys.contains kv.1))

/-- One formatted search result. -/
structure SimilarIncident where
  id : String
  similarity_score : ℚ
  text : String
  full_text : String
  metadata : StrDict
  deriving Repr, DecidableEq

/-- The result loop of `search_similar` (lines 349–382): for each hit compute
`similarity = 1 - distance` and keep it only if `similarity > 0.3`. -/
def formatResults : List QueryHit → List SimilarIncident
  | [] => []
  | h :: t =>
      let similarity : ℚ := 1 - h.distance
      if 3 / 10 < similarity then
        { id := h.hid, similarity_score := similarity,
          text := h.document.take 300, full_text := h.document,
          metadata := reconstructMetadata h.hid h.document h.metadata } ::
          formatResults t
      else formatResults t

/-- The returned payload of `search_similar`; absent dict keys are `none`. -/
structure SearchPayload where
  query : String
  similar_incidents : List SimilarIncident
  total_found : Option Nat
  search_time_ms : Option Nat
  error : Option String
  traceback : Option String
  deriving Repr, DecidableEq

/-- `search_similar(incident_description, top_k, filters)`. The store's
`query` call is abstracted as `queryStore` (`Except.error` models a raised
store exception, which the surrounding `try` turns into the error payload);
the traceback string is modelled by the exception message itself. -/
def search_similar (net : String → Option (List ℚ))
    (queryStore : List ℚ → Nat → Option StrDict → Except String (List QueryHit))
    (incident_description : String) (top_k : Nat) (filters : Option StrDict) :
    SearchPayload :=
  let query_embedding := (generateEmbeddings net [incident_description]).headD []
  let where_clause := whereClauseOf filters
  match queryStore query_embedding (min top_k 50) where_clause with
  | .error e =>
      { query := incident_description, similar_incidents := [],
        total_found := none, search_time_ms := none,
        error := some ("Error en búsqueda: " ++ e), traceback := some e }
  | .ok hits =>
      let similar_incidents := formatResults hits
      { query := incident_description, similar_incidents := similar_incidents,
        total_found := some similar_incidents.length,
        search_time_ms := some 0, error := none, traceback := none }

/-! ## Ingestion envelope (`load_incidents`) -/

/-- The returned payload of `load_incidents`; absent dict keys are `none`. -/
structure LoadPayload where
  success : Option Bool
  incidents_loaded : Option Nat
  source : Option String
  source_type : Option String
  error : Option String
  traceback : Option String
  deriving Repr, DecidableEq

/-- `load_incidents(source, source_type)`. The source-specific loader
(`_scrape_incidents_from_url` or `_load_incidents_from_file`) is abstracted
as `loader`: `Except.error` models a raised exception (file not found, parse
error, …), `Except.ok` the parsed incident list; the traceback string is
modelled by the exception message itself. -/
def load_incidents (useOllama : Bool) (net : String → Option (List ℚ))
    (c : Collection) (source source_type : String)
    (loader : Except String (List Incident)) : LoadPayload × Collection :=
  if source_type != "url" && source_type != "file" then
    ({ success := none, incidents_loaded := none, source := none,
       source_type := none,
       error := some ("Tipo de fuente no soportado: " ++ source_type),
       traceback := none }, c)
  else
    match loader with
    | .error e =>
        ({ success := none, incidents_loaded := none, source := none,
           source_type := none,
           error := some ("Error al cargar incidencias: " ++ e),
           traceback := some e }, c)
    | .ok incidents =>
        if incidents.isEmpty then
          ({ success := none, incidents_loaded := none, source := none,
             source_type := none,
             error := some "No se encontraron incidencias",
             traceback := none }, c)
        else
          ({ success := some true, incidents_loaded := some incidents.length,
             source := some source, source_type := some source_type,
             error := none, traceback := none },
           addIncidentsToDb useOllama net c incidents)

/-! ## Layout Cache (`get_galaxy_data`) -/

/-- One incident as exposed inside a sun. -/
structure IncidentView where
  vid : String
  text : String
  metadata : StrDict
  deriving Repr, DecidableEq

/-- One project's visualization node. -/
structure Sun where
  name : String
  x : ℚ
  y : ℚ
  z : ℚ
  size : Nat
  incident_count : Nat
  incidents : List IncidentView
  has_more : Bool
  deriving Repr, DecidableEq

/-- The returned payload of `get_galaxy_data`; keys absent from the error
payload are `none` / `[]`. -/
structure GalaxyPayload where
  success : Bool
  error : Option String
  suns : List Sun
  total_projects : Option Nat
  total_incidents : Option Nat
  deriving Repr, DecidableEq

/-- The per-incident view stored under a project: id, document truncated to
150 characters, metadata values truncated to 50 characters. -/
def viewOf (e : StoredEntry) : IncidentView :=
  { vid := e.eid, text := e.document.take 150,
    metadata := e.metadata.map (fun kv => (kv.1, kv.2.take 50)) }

/-- `metadata.get('Proyecto', metadata.get('proyecto', 'Sin proyecto'))`. -/
def projectOf (m : StrDict) : String :=
  pyGet m "Proyecto" (pyGet m "proyecto" "Sin proyecto")

/-- Appending one incident to `projects_temp` (a Python dict keyed by project
name, insertion-ordered). -/
def groupAdd (g : List (String × List IncidentView)) (name : String)
    (v : IncidentView) : List (String × List IncidentView) :=
  if g.any (fun p => p.1 == name) then
    g.map (fun p => if p.1 == name then (p.1, p.2 ++ [v]) else p)
  else g ++ [(name, [v])]

/-- The grouping loop over `results['metadatas']`. -/
def groupByProject (c : Collection) : List (String × List IncidentView) :=
  c.foldl (fun g e => groupAdd g (projectOf e.metadata) (viewOf e)) []

/-- The float literal `3.14159` of the angle computation. -/
def piApprox : ℚ := 314159 / 100000

/-- `angle = (hash_val % 360) * (3.14159 / 180)`. -/
def sunAngle (h : Nat) : ℚ := ((h % 360 : Nat) : ℚ) * (piApprox / 180)

/-- `radius = 30 + (hash_val % 50)`. -/
def sunRadius (h : Nat) : ℚ := 30 + ((h % 50 : Nat) : ℚ)

/-- `y = (hash_val % 20) - 10`. -/
def sunY (h : Nat) : ℚ := ((h % 20 : Nat) : ℚ) - 10

/-- One sun built from a `projects_temp` entry. `hash` abstracts
`int(hashlib.md5(name.encode()).hexdigest(), 16)` and `cosF`/`sinF` abstract
`np.cos`/`np.sin` — all three are external deterministic primitives. -/
def mkSun (cosF sinF : ℚ → ℚ) (hash : String → Nat)
    (p : String × List IncidentView) : Sun :=
  let h := hash p.1
  let angle := sunAngle h
  let radius := sunRadius h
  { name := p.1,
    x := cosF angle * radius,
    y := sunY h,
    z := sinF angle * radius,
    size := p.2.length,
    incident_count := p.2.length,
    incidents := p.2.take 500,
    has_more := decide (p.2.length > 500) }

/-- The regeneration path of `get_galaxy_data` (lines 475–556): error payload
on an empty collection, else group by project and build one sun per project. -/
def generateGalaxy (cosF sinF : ℚ → ℚ) (hash : String → Nat) (c : Collection) :
    GalaxyPayload :=
  if c.isEmpty then
    { success := false,
      error := some "No hay datos en la base de datos. Carga incidencias primero.",
      suns := [], total_projects := none, total_incidents := none }
  else
    let suns := (groupByProject c).map (mkSun cosF sinF hash)
    { success := true, error := none, suns := suns,
      total_projects := some suns.length, total_incidents := some c.length }

/-- The `galaxy_cache.json` file: `none` = absent, `some (.error ())` =
present but raising on read/parse, `some (.ok d)` = parsed contents. -/
abbrev CacheFile := Option (Except Unit GalaxyPayload)

/-- `get_galaxy_data(use_cache)`: the parsed cache is returned only when its
`total_incidents` equals the live `collection.count()`; any mismatch, absent
key, absent file, or parse failure falls through to regeneration. The
best-effort cache write does not affect the returned payload and is omitted. -/
def get_galaxy_data (cosF sinF : ℚ → ℚ) (hash : String → Nat)
    (c : Collection) (cache : CacheFile) (use_cache : Bool) : GalaxyPayload :=
  match use_cache, cache with
  | true, some (.ok cached) =>
      if cached.total_incidents = some c.length then cached
      else generateGalaxy cosF sinF hash c
  | _, _ => generateGalaxy cosF sinF hash c

/-! ## Spec-shaped definitions (for refinement-style comparison only) -/

/-- Modelled from the spec (§9, *Dynamic field-name matching as alias
priority lists*): an ordered alias list per canonical field, first present
wins, else the default. Compared against the code's nested `metadata.get`
chains. -/
def resolveAliases (m : StrDict) : List String → String → String
  | [], d => d
  | a :: rest, d =>
      match m.lookup a with
      | some v => v
      | none => resolveAliases m rest d

/-- The canonical display fields of a search result: output key, alias
priority list, and default (`rid` seeds the `ID` default, `doc` the
`Descripción` default). -/
def canonicalTable (rid doc : String) : List (String × List String × String) :=
  [("ID", ["ID", "id", "Identificador_incidencia"], rid),
   ("Proyecto", ["Proyecto", "proyecto"], "No especificado"),
   ("Fecha", ["Fecha", "fecha", "Fecha_envío_incidencia", "Fecha del incidente"],
     "N/A"),
   ("Descripción",
     ["Descripción", "descripcion", "Descripcion Problema",
      "Descripción_incidencia"], doc.take 200),
   ("Solución", ["Solución", "solucion", "Solucion"], "No registrada"),
   ("Estado", ["Estado", "estado", "status"], ""),
   ("Prioridad", ["Prioridad", "prioridad", "priority"], "")]

/-- Every source key claimed by some canonical display field. -/
def allAliases : List String :=
  ((canonicalTable "" "").map (fun f => f.2.1)).flatten

/-- A 501-character value, used to exhibit the untruncated CSV extra field. -/
def longVal : String := String.mk (List.replicate 501 'a')

/-! ## Lemmas about the search path -/

theorem mem_formatResults {inc : SimilarIncident} {hits : List QueryHit}
    (hmem : inc ∈ formatResults hits) :
    3 / 10 < inc.similarity_score ∧
      ∃ h ∈ hits, inc.similarity_score = 1 - h.distance := by
  induction hits with
  | nil => simp [formatResults] at hmem
  | cons q t ih =>
      simp only [formatResults] at hmem
      split at hmem
      next hc =>
        rcases List.mem_cons.mp hmem with h | h
        · subst h
          exact ⟨hc, q, List.mem_cons_self _ _, rfl⟩
        · obtain ⟨h1, w, hw, h2⟩ := ih h
          exact ⟨h1, w, List.mem_cons_of_mem _ hw, h2⟩
      next =>
        obtain ⟨h1, w, hw, h2⟩ := ih hmem
        exact ⟨h1, w, List.mem_cons_of_mem _ hw, h2⟩

theorem length_formatResults_le (hits : List QueryHit) :
    (formatResults hits).length ≤ hits.length := by
  induction hits with
  | nil => simp [formatResults]
  | cons q t ih =>
      simp only [formatResults]
      split
      · simpa using Nat.succ_le_succ ih
      · exact Nat.le_trans ih (Nat.le_succ _)

theorem length_chromaQuery_le (dist : List ℚ → List ℚ → ℚ) (c : Collection)
    (emb : List ℚ) (k : Nat) (w : Option StrDict) :
    (chromaQuery dist c emb k w).length ≤ k := by
  simp only [chromaQuery, List.length_map]
  exact List.length_take_le _ _

/-! ## Lemmas about the write path (`add`/`upsert`/batching) -/

theorem hasId_eq_any_eids (c : Collection) (i : String) :
    hasId c i = (c.map StoredEntry.eid).any (fun x => x == i) := by
  induction c with
  | nil => rfl
  | cons e t ih =>
      simp only [hasId, List.map_cons, List.any_cons] at ih ⊢
      rw [ih]

theorem hasId_congr {c₁ c₂ : Collection}
    (h : c₁.map StoredEntry.eid = c₂.map StoredEntry.eid) (i : String) :
    hasId c₁ i = hasId c₂ i := by
  rw [hasId_eq_any_eids, hasId_eq_any_eids, h]

theorem eids_upsertOne_of_hasId {c : Collection} {e : StoredEntry}
    (h : hasId c e.eid = true) :
    (upsertOne c e).map StoredEntry.eid = c.map StoredEntry.eid := by
  rw [upsertOne, if_pos h, List.map_map]
  apply List.map_congr_left
  intro a _
  simp only [Function.comp_apply]
  by_cases hb : (a.eid == e.eid) = true
  · rw [if_pos hb]
    exact (eq_of_beq hb).symm
  · rw [if_neg hb]

theorem hasId_upsertOne_self (c : Collection) (e : StoredEntry) :
    hasId (upsertOne c e) e.eid = true := by
  by_cases h : hasId c e.eid = true
  · rw [hasId_congr (eids_upsertOne_of_hasId h)]
    exact h
  · rw [upsertOne, if_neg h, hasId, List.any_append]
    simp

theorem hasId_upsertOne_mono {c : Collection} {i : String} (e : StoredEntry)
    (h : hasId c i = true) : hasId (upsertOne c e) i = true := by
  by_cases hp : hasId c e.eid = true
  · rwa [hasId_congr (eids_upsertOne_of_hasId hp)]
  · rw [upsertOne, if_neg hp, hasId, List.any_append]
    rw [hasId] at h
    simp [h]

theorem hasId_upsert_mono {i : String} (es : List StoredEntry) :
    ∀ c : Collection, hasId c i = true → hasId (upsert c es) i = true := by
  induction es with
  | nil => exact fun c h => h
  | cons e t ih => exact fun c h => ih (upsertOne c e) (hasId_upsertOne_mono e h)

theorem hasId_upsert_of_mem {es : List StoredEntry} {e : StoredEntry}
    (hm : e ∈ es) : ∀ c : Collection, hasId (upsert c es) e.eid = true := by
  induction es with
  | nil => cases hm
  | cons a t ih =>
      intro c
      rcases List.mem_cons.mp hm with rfl | hm'
      · exact hasId_upsert_mono t _ (hasId_upsertOne_self c e)
      · exact ih hm' _

theorem eids_upsert_of_all_present {es : List StoredEntry} :
    ∀ c : Collection, (∀ e ∈ es, hasId c e.eid = true) →
      (upsert c es).map StoredEntry.eid = c.map StoredEntry.eid := by
  induction es with
  | nil => exact fun _ _ => rfl
  | cons a t ih =>
      intro c h
      have ha := h a (List.mem_cons_self a t)
      have h1 := eids_upsertOne_of_hasId ha
      have h2 : ∀ e ∈ t, hasId (upsertOne c a) e.eid = true := by
        intro e he
        rw [hasId_congr h1]
        exact h e (List.mem_cons_of_mem _ he)
      show (upsert (upsertOne c a) t).map StoredEntry.eid = c.map StoredEntry.eid
      rw [ih _ h2]
      exact h1

theorem addEntries_ok {c c' : Collection} {es : List StoredEntry}
    (h : addEntries c es = .ok c') : c' = c ++ es := by
  unfold addEntries at h
  split at h
  · cases h
  · split at h
    · cases h
      rfl
    · cases h

theorem hasId_addBatch_mono {c : Collection} {i : String} {es : List StoredEntry}
    (h : hasId c i = true) : hasId (addBatch c es) i = true := by
  cases he : addEntries c es with
  | error u =>
      rw [addBatch, he]
      exact hasId_upsert_mono es c h
  | ok c' =>
      rw [addBatch, he, addEntries_ok he, hasId, List.any_append]
      rw [hasId] at h
      simp [h]

theorem hasId_addBatch_of_mem {es : List StoredEntry} {e : StoredEntry}
    (hm : e ∈ es) (c : Collection) : hasId (addBatch c es) e.eid = true := by
  cases he : addEntries c es with
  | error u =>
      rw [addBatch, he]
      exact hasId_upsert_of_mem hm c
  | ok c' =>
      rw [addBatch, he, addEntries_ok he, hasId, List.any_append]
      have h2 : es.any (fun x => x.eid == e.eid) = true :=
        List.any_eq_true.mpr ⟨e, hm, by simp⟩
      simp [h2]

theorem eids_addBatch_of_all_present {c : Collection} {es : List StoredEntry}
    (h : ∀ e ∈ es, hasId c e.eid = true) :
    (addBatch c es).map StoredEntry.eid = c.map StoredEntry.eid := by
  cases es with
  | nil =>
      have hok : addEntries c [] = .ok (c ++ []) := by
        unfold addEntries
        simp
      rw [addBatch, hok]
      simp
  | cons a t =>
      have hany : (a :: t).any (fun e => hasId c e.eid) = true :=
        List.any_eq_true.mpr ⟨a, List.mem_cons_self a t, h a (List.mem_cons_self a t)⟩
      have herr : addEntries c (a :: t) = .error () := by
        unfold addEntries
        rw [if_pos hany]
      rw [addBatch, herr]
      exact eids_upsert_of_all_present c h

/-! ## Lemmas about batching (`chunks`) -/

theorem chunksAux_flatten {n : Nat} (hn : 0 < n) (fuel : Nat) :
    ∀ l : List α, l.length ≤ fuel → (chunksAux n fuel l).flatten = l := by
  induction fuel with
  | zero =>
      intro l h
      have : l = [] := List.eq_nil_of_length_eq_zero (Nat.le_zero.mp h)
      subst this
      rfl
  | succ fuel ih =>
      intro l h
      cases l with
      | nil => rfl
      | cons x xs =>
          show ((x :: xs).take n :: chunksAux n fuel ((x :: xs).drop n)).flatten
            = x :: xs
          have hlen : ((x :: xs).drop n).length ≤ fuel := by
            rw [List.length_drop]
            simp only [List.length_cons] at h ⊢
            omega
          rw [List.flatten_cons, ih _ hlen, List.take_append_drop]

theorem chunks_flatten {n : Nat} (hn : 0 < n) (l : List α) :
    (chunks n l).flatten = l :=
  chunksAux_flatten hn _ l (Nat.le_refl _)

theorem exists_chunk_of_mem {n : Nat} (hn : 0 < n) {l : List α} {x : α}
    (hx : x ∈ l) : ∃ b ∈ chunks n l, x ∈ b := by
  rw [← chunks_flatten hn l] at hx
  exact List.mem_flatten.mp hx

theorem mem_of_mem_chunks {n : Nat} (hn : 0 < n) {l : List α} {b : List α}
    (hb : b ∈ chunks n l) {x : α} (hx : x ∈ b) : x ∈ l := by
  rw [← chunks_flatten hn l]
  exact List.mem_flatten.mpr ⟨b, hb, hx⟩

/-! ## Lemmas about full ingestion -/

theorem mkEntries_eq_map (net : String → Option (List ℚ)) (batch : List Incident) :
    mkEntries net batch = batch.map (toEntry net) := by
  induction batch with
  | nil => rfl
  | cons a t ih => exact congrArg (List.cons (toEntry net a)) ih

theorem hasId_ingestFold_mono (net : String → Option (List ℚ)) {i : String} :
    ∀ (bs : List (List Incident)) (c : Collection), hasId c i = true →
      hasId (bs.foldl (fun acc batch => addBatch acc (mkEntries net batch)) c) i
        = true := by
  intro bs
  induction bs with
  | nil => exact fun c h => h
  | cons b t ih => exact fun c h => ih _ (hasId_addBatch_mono h)

theorem hasId_ingestFold_of_mem (net : String → Option (List ℚ)) {inc : Incident} :
    ∀ (bs : List (List Incident)) (c : Collection) (b : List Incident),
      b ∈ bs → inc ∈ b →
      hasId (bs.foldl (fun acc batch => addBatch acc (mkEntries net batch)) c)
        (incId inc) = true := by
  intro bs
  induction bs with
  | nil => intro c b hb; cases hb
  | cons b0 t ih =>
      intro c b hb hinc
      rcases List.mem_cons.mp hb with heq | hb'
      · rw [heq] at hinc
        have hmem : toEntry net inc ∈ mkEntries net b0 := by
          rw [mkEntries_eq_map]
          exact List.mem_map_of_mem _ hinc
        exact hasId_ingestFold_mono net t _ (hasId_addBatch_of_mem hmem c)
      · exact ih _ b hb' hinc

theorem eids_ingestFold_of_all_present (net : String → Option (List ℚ)) :
    ∀ (bs : List (List Incident)) (c : Collection),
      (∀ b ∈ bs, ∀ inc ∈ b, hasId c (incId inc) = true) →
      (bs.foldl (fun acc batch => addBatch acc (mkEntries net batch)) c).map
          StoredEntry.eid = c.map StoredEntry.eid := by
  intro bs
  induction bs with
  | nil => exact fun _ _ => rfl
  | cons b t ih =>
      intro c h
      have hb : ∀ e ∈ mkEntries net b, hasId c e.eid = true := by
        intro e he
        rw [mkEntries_eq_map] at he
        obtain ⟨inc, hinc, rfl⟩ := List.mem_map.mp he
        exact h b (List.mem_cons_self b t) inc hinc
      have h1 := eids_addBatch_of_all_present hb
      have h2 : ∀ b' ∈ t, ∀ inc ∈ b',
          hasId (addBatch c (mkEntries net b)) (incId inc) = true := by
        intro b' hb' inc hinc
        rw [hasId_congr h1]
        exact h b' (List.mem_cons_of_mem _ hb') inc hinc
      show (t.foldl (fun acc batch => addBatch acc (mkEntries net batch))
          (addBatch c (mkEntries net b))).map StoredEntry.eid
        = c.map StoredEntry.eid
      rw [ih _ h2]
      exact h1

/-! ## Lemmas about metadata reconstruction and extra fields -/

theorem resolveAliases_nil (m : StrDict) (d : String) :
    resolveAliases m [] d = d := rfl

theorem resolveAliases_cons (m : StrDict) (a : String) (al : List String)
    (d : String) :
    resolveAliases m (a :: al) d = pyGet m a (resolveAliases m al d) := by
  rw [resolveAliases, pyGet]
  cases m.lookup a <;> rfl

theorem resolveAliases_of_all_none {m : StrDict} {al : List String} {d : String}
    (h : ∀ a ∈ al, m.lookup a = none) : resolveAliases m al d = d := by
  induction al with
  | nil => rfl
  | cons a t ih =>
      rw [resolveAliases, h a (List.mem_cons_self a t)]
      exact ih (fun x hx => h x (List.mem_cons_of_mem _ hx))

theorem lookup_append_of_keys_ne {l₁ l₂ : StrDict} {k : String}
    (h : ∀ p ∈ l₁, p.1 ≠ k) : (l₁ ++ l₂).lookup k = l₂.lookup k := by
  induction l₁ with
  | nil => rfl
  | cons a t ih =>
      rcases a with ⟨ak, av⟩
      have hne : (k == ak) = false :=
        beq_eq_false_iff_ne.mpr
          (fun he => h (ak, av) (List.mem_cons_self _ _) he.symm)
      rw [List.cons_append, List.lookup_cons, hne]
      exact ih (fun p hp => h p (List.mem_cons_of_mem _ hp))

theorem contains_excludedKeys_eq (x : String) :
    excludedKeys.contains x = decide (x ∈ excludedKeys) := by
  simp [List.contains]

theorem lookup_filter_not_excluded {m : StrDict} {k : String}
    (hk : ¬ k ∈ excludedKeys) :
    (m.filter (fun kv => !(excludedKeys.contains kv.1))).lookup k =
      m.lookup k := by
  induction m with
  | nil => rfl
  | cons a t ih =>
      rcases a with ⟨ak, av⟩
      by_cases hex : ak ∈ excludedKeys
      · have hc : excludedKeys.contains ak = true := by
          rw [contains_excludedKeys_eq]
          exact decide_eq_true hex
        have hkak : (k == ak) = false :=
          beq_eq_false_iff_ne.mpr (fun he => hk (he ▸ hex))
        rw [List.filter_cons]
        simp only [hc, Bool.not_true]
        rw [if_neg (by simp), List.lookup_cons, hkak]
        exact ih
      · have hc : excludedKeys.contains ak = false := by
          rw [contains_excludedKeys_eq]
          exact decide_eq_false hex
        rw [List.filter_cons]
        simp only [hc, Bool.not_false, if_true]
        rw [List.lookup_cons, List.lookup_cons]
        cases k == ak
        · exact ih
        · rfl

/-- Keys listed in `excludedKeys` cannot equal a key that avoids the list. -/
theorem ne_of_not_excluded {k : String} (hk : ¬ k ∈ excludedKeys) (x : String)
    (hx : x ∈ excludedKeys) : x ≠ k :=
  fun he => hk (he ▸ hx)

theorem string_take_length_le (s : String) (n : Nat) : (s.take n).length ≤ n := by
  rw [String.take_eq]
  show (s.data.take n).length ≤ n
  exact List.length_take_le _ _

theorem addJsonExtras_bound (item : JsonItem) :
    ∀ base : Incident, (∀ kv ∈ base, kv.1 ∈ baseKeys ∨ kv.2.length ≤ 500) →
      ∀ kv ∈ addJsonExtras base item, kv.1 ∈ baseKeys ∨ kv.2.length ≤ 500 := by
  induction item with
  | nil => exact fun base h => h
  | cons a t ih =>
      intro base hbase
      apply ih
      intro kv hkv
      rcases a with ⟨ak, av⟩
      cases av with
      | none => exact hbase kv hkv
      | some s =>
          rw [show jsonExtraStep base (ak, some s) =
              (if (base.lookup ak).isSome then base
                else base ++ [(ak, s.take 500)]) from rfl] at hkv
          have hlen : (s.take 500).length ≤ 500 := string_take_length_le s 500
          generalize hv : s.take 500 = v at hkv hlen
          split at hkv
          · exact hbase kv hkv
          · rcases List.mem_append.mp hkv with h | h
            · exact hbase kv h
            · have hkv' := List.mem_singleton.mp h
              subst hkv'
              exact Or.inr hlen

/-- Each canonical display field of a reconstructed metadata record equals
the spec-shaped first-present-wins alias resolution over its alias list. -/
theorem lookup_reconstruct_canonical (rid doc : String) (m : StrDict)
    {nm : String} {al : List String} {d : String}
    (hfield : (nm, al, d) ∈ canonicalTable rid doc) :
    (reconstructMetadata rid doc m).lookup nm = some (resolveAliases m al d) := by
  simp only [canonicalTable, List.mem_cons, List.not_mem_nil, or_false,
    Prod.mk.injEq] at hfield
  rcases hfield with h1 | h1 | h1 | h1 | h1 | h1 | h1
  all_goals obtain ⟨rfl, rfl, hd⟩ := h1
  all_goals rw [hd]
  · rw [show (reconstructMetadata rid doc m).lookup "ID" =
        some (pyGet m "ID" (pyGet m "id" (pyGet m "Identificador_incidencia"
          rid))) from rfl]
    simp only [resolveAliases_cons, resolveAliases_nil]
  · rw [show (reconstructMetadata rid doc m).lookup "Proyecto" =
        some (pyGet m "Proyecto" (pyGet m "proyecto" "No especificado"))
        from rfl]
    simp only [resolveAliases_cons, resolveAliases_nil]
  · rw [show (reconstructMetadata rid doc m).lookup "Fecha" =
        some (pyGet m "Fecha" (pyGet m "fecha" (pyGet m "Fecha_envío_incidencia"
          (pyGet m "Fecha del incidente" "N/A")))) from rfl]
    simp only [resolveAliases_cons, resolveAliases_nil]
  · rw [show (reconstructMetadata rid doc m).lookup "Descripción" =
        some (pyGet m "Descripción" (pyGet m "descripcion"
          (pyGet m "Descripcion Problema" (pyGet m "Descripción_incidencia"
            (doc.take 200))))) from rfl]
    simp only [resolveAliases_cons, resolveAliases_nil]
  · rw [show (reconstructMetadata rid doc m).lookup "Solución" =
        some (pyGet m "Solución" (pyGet m "solucion" (pyGet m "Solucion"
          "No registrada"))) from rfl]
    simp only [resolveAliases_cons, resolveAliases_nil]
  · rw [show (reconstructMetadata rid doc m).lookup "Estado" =
        some (pyGet m "Estado" (pyGet m "estado" (pyGet m "status" "")))
        from rfl]
    simp only [resolveAliases_cons, resolveAliases_nil]
  · rw [show (reconstructMetadata rid doc m).lookup "Prioridad" =
        some (pyGet m "Prioridad" (pyGet m "prioridad" (pyGet m "priority" "")))
        from rfl]
    simp only [resolveAliases_cons, resolveAliases_nil]

/-- C5 (amended): each canonical display field resolves to the first-present
alias's value, else its default (the entry id for `ID`, the 200-character
document prefix for `Descripción`, a placeholder for the rest); every stored
metadata key outside the code's fixed exclusion list passes through
unchanged. The `source` key — claimed by no canonical field — is in that
exclusion list, so it is silently dropped (see the counterexample). -/
theorem C5_alias_resolution_amended (rid doc : String) (m m' : StrDict)
    (k nm : String) (al : List String) (d : String)
    (hk : ¬ k ∈ excludedKeys)
    (hfield : (nm, al, d) ∈ canonicalTable rid doc)
    (hnone : ∀ a ∈ al, m'.lookup a = none) :
    (reconstructMetadata rid doc m).lookup k = m.lookup k ∧
      (reconstructMetadata rid doc m).lookup nm = some (resolveAliases m al d) ∧
      (reconstructMetadata rid doc m').lookup nm = some d := by
  refine ⟨?_, lookup_reconstruct_canonical rid doc m hfield, ?_⟩
  · rw [reconstructMetadata, lookup_append_of_keys_ne]
    · exact lookup_filter_not_excluded hk
    · intro p hp
      simp only [List.mem_cons, List.not_mem_nil, or_false] at hp
      rcases hp with rfl | rfl | rfl | rfl | rfl | rfl | rfl
      · exact ne_of_not_excluded hk "ID" (by decide)
      · exact ne_of_not_excluded hk "Proyecto" (by decide)
      · exact ne_of_not_excluded hk "Fecha" (by decide)
      · exact ne_of_not_excluded hk "Descripción" (by decide)
      · exact ne_of_not_excluded hk "Solución" (by decide)
      · exact ne_of_not_excluded hk "Estado" (by decide)
      · exact ne_of_not_excluded hk "Prioridad" (by decide)
  · rw [lookup_reconstruct_canonical rid doc m' hfield,
      resolveAliases_of_all_none hnone]

/-- Witness for C5: a passthrough key, a `Fecha` hit via the `fecha` alias,
and a metadata record with no `Fecha` alias falling back to `"N/A"`. -/
theorem C5_alias_resolution_amended_witness :
    (reconstructMetadata "r1" "docu"
        [("fecha", "2024-01-01"), ("extra", "v")]).lookup "extra" =
      ([("fecha", "2024-01-01"), ("extra", "v")] : StrDict).lookup "extra" ∧
      (reconstructMetadata "r1" "docu"
        [("fecha", "2024-01-01"), ("extra", "v")]).lookup "Fecha" =
        some (resolveAliases [("fecha", "2024-01-01"), ("extra", "v")]
          ["Fecha", "fecha", "Fecha_envío_incidencia", "Fecha del incidente"]
          "N/A") ∧
      (reconstructMetadata "r1" "docu" [("unrelated", "u")]).lookup "Fecha" =
        some "N/A" :=
  C5_alias_resolution_amended "r1" "docu"
    [("fecha", "2024-01-01"), ("extra", "v")] [("unrelated", "u")]
    "extra" "Fecha"
    ["Fecha", "fecha", "Fecha_envío_incidencia", "Fecha del incidente"] "N/A"
    (by decide) (by decide) (by decide)

/-- C5 counterexample: the metadata key `source` is claimed by no canonical
display field, yet it does not appear in the reconstructed output — its
information is silently dropped, refuting the claim's passthrough clause. -/
theorem C5_counterexample :
    ¬ "source" ∈ allAliases ∧
      List.lookup "source" [("source", "incidents.csv")] =
        some "incidents.csv" ∧
      (reconstructMetadata "i1" "doc"
        [("source", "incidents.csv")]).lookup "source" = none :=
  ⟨by decide, rfl, rfl⟩

/-- All five keys written before the extra-field loop are canonical. -/
theorem base5_keys (a b c e f : String) :
    ∀ kv ∈ ([("id", a), ("title", b), ("description", c), ("source", e),
      ("Proyecto", f)] : Incident), kv.1 ∈ baseKeys ∨ kv.2.length ≤ 500 := by
  intro kv hkv
  simp only [List.mem_cons, List.not_mem_nil, or_false] at hkv
  rcases hkv with rfl | rfl | rfl | rfl | rfl
  · exact Or.inl (show "id" ∈ baseKeys by decide)
  · exact Or.inl (show "title" ∈ baseKeys by decide)
  · exact Or.inl (show "description" ∈ baseKeys by decide)
  · exact Or.inl (show "source" ∈ baseKeys by decide)
  · exact Or.inl (show "Proyecto" ∈ baseKeys by decide)

/-- C6 (amended): for JSON-ingested records, every extra field — a source
key not claimed by a canonical field — is stored truncated to at most 500
characters. (The CSV branch stores extra columns untruncated, see the
counterexample; URL ingestion produces no extra fields.) -/
theorem C6_extra_truncation_amended (filename : String) (n : Nat)
    (item : JsonItem) (k v : String)
    (hmem : (k, v) ∈ jsonItemToIncident filename n item)
    (hk : ¬ k ∈ baseKeys) :
    v.length ≤ 500 := by
  rw [jsonItemToIncident] at hmem
  rcases addJsonExtras_bound item _ (base5_keys _ _ _ _ _) (k, v) hmem with h | h
  · exact absurd h hk
  · exact h

/-- Witness for C6: one JSON item with an extra field. -/
theorem C6_extra_truncation_amended_witness :
    ("x".take 500).length ≤ 500 :=
  C6_extra_truncation_amended "f.json" 0 [("campo", some "x")] "campo"
    ("x".take 500)
    (List.mem_cons_of_mem _ (List.mem_cons_of_mem _ (List.mem_cons_of_mem _
      (List.mem_cons_of_mem _ (List.mem_cons_of_mem _
        (List.mem_cons_self _ _))))))
    (by decide)

/-- C6 counterexample: a CSV row with a 501-character extra column is stored
verbatim — the value's length exceeds the claimed 500-character bound. -/
theorem C6_counterexample :
    (csvRowToIncident "f.csv" 0 ["id", "notas"]
        [("id", "1"), ("notas", longVal)]).lookup "notas" = some longVal ∧
      500 < longVal.length ∧ ¬ "notas" ∈ baseKeys := by
  refine ⟨rfl, ?_, by decide⟩
  have h : longVal.length = 501 := by
    show (List.replicate 501 'a').length = 501
    simp
  omega

/-- C1: for every successful call to `search_similar`, every entry of
`similar_incidents` has `similarity_score` strictly greater than 0.3, and
that score is `1 − distance` for a hit the store returned; no result with
similarity ≤ 0.3 appears. The store's reply is quantified over via a stub
`queryStore` that answers the single query `search_similar` issues. -/
theorem C1_threshold_invariant (net : String → Option (List ℚ))
    (hits : List QueryHit) (q : String) (top_k : Nat)
    (filters : Option StrDict) (inc : SimilarIncident)
    (hmem : inc ∈ (search_similar net (fun _ _ _ => Except.ok hits) q top_k
      filters).similar_incidents) :
    3 / 10 < inc.similarity_score ∧
      ∃ h ∈ hits, inc.similarity_score = 1 - h.distance := by
  simp only [search_similar] at hmem
  exact mem_formatResults hmem

/-- Witness for C1 at a concrete store reply with one hit at distance 1/2. -/
theorem C1_threshold_invariant_witness :
    3 / 10 <
      (SimilarIncident.mk "a" (1 - 1 / 2) ("doc".take 300) "doc"
        (reconstructMetadata "a" "doc" [])).similarity_score ∧
      ∃ h ∈ [(⟨"a", 1 / 2, "doc", []⟩ : QueryHit)],
        (SimilarIncident.mk "a" (1 - 1 / 2) ("doc".take 300) "doc"
          (reconstructMetadata "a" "doc" [])).similarity_score = 1 - h.distance :=
  C1_threshold_invariant (fun _ => none) [⟨"a", 1 / 2, "doc", []⟩] "q" 5 none _
    (by
      simp only [search_similar, formatResults]
      rw [if_pos (by norm_num : (3 : ℚ) / 10 < 1 - 1 / 2)]
      exact List.mem_cons_self _ _)

/-- C2: the store is queried for `min(top_k, 50)` neighbors, so after the
threshold filter the number of returned results — and the reported
`total_found` — is at most `min top_k 50`, for every `top_k`. -/
theorem C2_bounded_fanout (dist : List ℚ → List ℚ → ℚ) (c : Collection)
    (net : String → Option (List ℚ)) (q : String) (top_k : Nat)
    (filters : Option StrDict) :
    (search_similar net (fun emb k w => Except.ok (chromaQuery dist c emb k w))
        q top_k filters).similar_incidents.length ≤ min top_k 50 ∧
      (search_similar net (fun emb k w => Except.ok (chromaQuery dist c emb k w))
          q top_k filters).total_found =
        some (search_similar net
            (fun emb k w => Except.ok (chromaQuery dist c emb k w))
            q top_k filters).similar_incidents.length := by
  constructor
  · simp only [search_similar]
    exact Nat.le_trans (length_formatResults_le _) (length_chromaQuery_le _ _ _ _ _)
  · rfl

/-- C3: ingesting the same incident list twice leaves the collection with the
same `count()` as ingesting it once: every id is present after the first
ingestion, so during the second one every `add` either appends nothing (empty
batch) or raises and is retried as `upsert`, which replaces entries in place
and never changes the id multiset. -/
theorem C3_idempotent_reingestion (u : Bool) (net : String → Option (List ℚ))
    (c : Collection) (incs : List Incident) :
    (addIncidentsToDb u net (addIncidentsToDb u net c incs) incs).length =
      (addIncidentsToDb u net c incs).length := by
  by_cases hempty : incs.isEmpty = true
  · simp [addIncidentsToDb, hempty]
  · have hn0 : 0 < (if u then 10 else 50) := by cases u <;> simp
    have hall : ∀ inc ∈ incs,
        hasId (addIncidentsToDb u net c incs) (incId inc) = true := by
      intro inc hinc
      obtain ⟨b, hb, hbinc⟩ := exists_chunk_of_mem hn0 hinc
      rw [addIncidentsToDb, if_neg hempty]
      exact hasId_ingestFold_of_mem net _ c b hb hbinc
    have hpres : ∀ b ∈ chunks (if u then 10 else 50) incs, ∀ inc ∈ b,
        hasId (addIncidentsToDb u net c incs) (incId inc) = true := by
      intro b hb inc hinc
      exact hall inc (mem_of_mem_chunks hn0 hb hinc)
    have heq : (addIncidentsToDb u net (addIncidentsToDb u net c incs) incs).map
        StoredEntry.eid = (addIncidentsToDb u net c incs).map StoredEntry.eid := by
      conv_lhs => rw [addIncidentsToDb, if_neg hempty]
      exact eids_ingestFold_of_all_present net _ _ hpres
    have := congrArg List.length heq
    simpa using this

/-- C7: with the remote backend, `_generate_embeddings` yields exactly one
vector per input text in input order (conjuncts 1–2); any text whose request
fails gets the zero vector of length 768 (conjunct 3); and ingesting a
nonempty batch of parsed incidents under a fully unreachable endpoint
(`net ≡ none`) still reports `success: True` with `incidents_loaded = N`
(conjunct 4). -/
theorem C7_degraded_embedding_ingestion (net : String → Option (List ℚ))
    (texts : List String) (i : Nat) (t : String) (u : Bool) (c : Collection)
    (incs : List Incident) (src : String)
    (hne : incs ≠ [])
    (hfail : net (t.take 2000) = none) :
    (generateEmbeddings net texts).length = texts.length ∧
      (generateEmbeddings net texts)[i]? = texts[i]?.map (embedOne net) ∧
      embedOne net t = List.replicate 768 0 ∧
      (load_incidents u (fun _ => none) c src "file" (Except.ok incs)).1 =
        { success := some true, incidents_loaded := some incs.length,
          source := some src, source_type := some "file",
          error := none, traceback := none } := by
  refine ⟨?_, ?_, ?_, ?_⟩
  · induction texts with
    | nil => rfl
    | cons a ts ih => simpa [generateEmbeddings] using ih
  · induction texts generalizing i with
    | nil => simp [generateEmbeddings]
    | cons a ts ih =>
        cases i with
        | zero => simp [generateEmbeddings]
        | succ j => simpa [generateEmbeddings] using ih j
  · rw [embedOne, hfail]
  · cases incs with
    | nil => exact absurd rfl hne
    | cons a as => rfl

/-- Witness for C7: two texts against an unreachable endpoint. -/
theorem C7_degraded_embedding_ingestion_witness :
    (generateEmbeddings (fun _ => none) ["a", "b"]).length =
        (["a", "b"] : List String).length ∧
      (generateEmbeddings (fun _ => none) ["a", "b"])[0]? =
        (["a", "b"] : List String)[0]?.map (embedOne (fun _ => none)) ∧
      embedOne (fun _ => none) "a" = List.replicate 768 0 ∧
      (load_incidents true (fun _ => none) [] "f.json" "file"
          (Except.ok [[("id", "1")], [("id", "2")]])).1 =
        { success := some true,
          incidents_loaded := some [[("id", "1")], [("id", "2")]].length,
          source := some "f.json", source_type := some "file",
          error := none, traceback := none } :=
  C7_degraded_embedding_ingestion (fun _ => none) ["a", "b"] 0 "a" true []
    [[("id", "1")], [("id", "2")]] "f.json" (by simp) rfl

/-- C8 (amended): zero parsed incidents always yield an error payload, never
success — but that payload carries only `error`, no `traceback`; a nonempty
parse yields `{success, incidents_loaded, source, source_type}` with
`incidents_loaded` the number of parsed incidents; a loader exception yields
`{error, traceback}`. -/
theorem C8_load_envelope_amended (u : Bool) (net : String → Option (List ℚ))
    (c : Collection) (src stype : String) (incs : List Incident) (e : String)
    (hstype : stype = "url" ∨ stype = "file")
    (hne : incs ≠ []) :
    ((load_incidents u net c src stype (Except.ok [])).1 =
      { success := none, incidents_loaded := none, source := none,
        source_type := none, error := some "No se encontraron incidencias",
        traceback := none }) ∧
    ((load_incidents u net c src stype (Except.ok incs)).1 =
      { success := some true, incidents_loaded := some incs.length,
        source := some src, source_type := some stype,
        error := none, traceback := none }) ∧
    ((load_incidents u net c src stype (Except.error e)).1 =
      { success := none, incidents_loaded := none, source := none,
        source_type := none,
        error := some ("Error al cargar incidencias: " ++ e),
        traceback := some e }) := by
  rcases hstype with rfl | rfl <;>
    refine ⟨rfl, ?_, rfl⟩ <;>
    (cases incs with
     | nil => exact absurd rfl hne
     | cons a as => rfl)

/-- Witness for C8 at a concrete source and a one-incident parse. -/
theorem C8_load_envelope_amended_witness :
    ((load_incidents true (fun _ => none) [] "f.csv" "file"
        (Except.ok [])).1 =
      { success := none, incidents_loaded := none, source := none,
        source_type := none, error := some "No se encontraron incidencias",
        traceback := none }) ∧
    ((load_incidents true (fun _ => none) [] "f.csv" "file"
        (Except.ok [[("id", "1")]])).1 =
      { success := some true, incidents_loaded := some [[("id", "1")]].length,
        source := some "f.csv", source_type := some "file",
        error := none, traceback := none }) ∧
    ((load_incidents true (fun _ => none) [] "f.csv" "file"
        (Except.error "boom")).1 =
      { success := none, incidents_loaded := none, source := none,
        source_type := none,
        error := some ("Error al cargar incidencias: " ++ "boom"),
        traceback := some "boom" }) :=
  C8_load_envelope_amended true (fun _ => none) [] "f.csv" "file"
    [[("id", "1")]] "boom" (Or.inr rfl) (by simp)

/-- C8 counterexample: on the zero-incidents failure the payload has an
`error` key but `traceback` is absent (and it is not a success payload), so
"on failure it returns `{error, traceback}`" fails as stated. -/
theorem C8_counterexample :
    (load_incidents true (fun _ => none) [] "f.json" "file"
        (Except.ok [])).1.error = some "No se encontraron incidencias" ∧
      (load_incidents true (fun _ => none) [] "f.json" "file"
        (Except.ok [])).1.traceback = none ∧
      (load_incidents true (fun _ => none) [] "f.json" "file"
        (Except.ok [])).1.success = none :=
  ⟨rfl, rfl, rfl⟩

/-- Every sun of a generated galaxy carries the position computed from the
content hash of its own project name alone. -/
theorem sun_mem_position (cosF sinF : ℚ → ℚ) (hash : String → Nat)
    {c : Collection} {s : Sun}
    (hs : s ∈ (generateGalaxy cosF sinF hash c).suns) :
    s.x = cosF (sunAngle (hash s.name)) * sunRadius (hash s.name) ∧
      s.y = sunY (hash s.name) ∧
      s.z = sinF (sunAngle (hash s.name)) * sunRadius (hash s.name) := by
  rw [generateGalaxy] at hs
  by_cases hc : c.isEmpty = true
  · rw [if_pos hc] at hs
    simp at hs
  · rw [if_neg hc] at hs
    simp only at hs
    obtain ⟨p, hp, rfl⟩ := List.mem_map.mp hs
    exact ⟨rfl, rfl, rfl⟩

/-- C4 (amended): any cache whose stored `total_incidents` differs from the
live count (including an absent or unparseable cache) is never returned —
the call regenerates; when the collection is nonempty the regenerated output
reports `total_incidents = count()`, but when the collection is empty the
regenerated output is the no-data error payload whose `total_incidents` key
is absent; a parsed cache matching the live count is returned as-is. -/
theorem C4_cache_invalidation_amended (cosF sinF : ℚ → ℚ) (hash : String → Nat)
    (c : Collection) (cache cache₂ : CacheFile) (d₂ : GalaxyPayload)
    (hmis : ∀ d, cache = some (Except.ok d) → d.total_incidents ≠ some c.length)
    (h2a : cache₂ = some (Except.ok d₂))
    (h2b : d₂.total_incidents = some c.length) :
    get_galaxy_data cosF sinF hash c cache true = generateGalaxy cosF sinF hash c ∧
      (c ≠ [] →
        (generateGalaxy cosF sinF hash c).total_incidents = some c.length) ∧
      (c = [] → (generateGalaxy cosF sinF hash c).total_incidents = none) ∧
      get_galaxy_data cosF sinF hash c cache₂ true = d₂ := by
  refine ⟨?_, ?_, ?_, ?_⟩
  · cases cache with
    | none => rfl
    | some pc =>
        cases pc with
        | error u => rfl
        | ok d =>
            have hd := hmis d rfl
            simp [get_galaxy_data, hd]
  · intro hne
    cases c with
    | nil => exact absurd rfl hne
    | cons a t => rfl
  · intro h
    subst h
    rfl
  · rw [h2a]
    simp [get_galaxy_data, h2b]

/-- Witness for C4: a one-entry collection with a stale (N = 2) cache and a
matching (N = 1) cache. -/
theorem C4_cache_invalidation_amended_witness :
    get_galaxy_data (fun q => q) (fun q => q) (fun _ => 0)
        [⟨"i1", "doc", [], [("Proyecto", "A")]⟩]
        (some (Except.ok
          { success := true, error := none, suns := [],
            total_projects := some 1, total_incidents := some 2 })) true =
      generateGalaxy (fun q => q) (fun q => q) (fun _ => 0)
        [⟨"i1", "doc", [], [("Proyecto", "A")]⟩] ∧
      (([⟨"i1", "doc", [], [("Proyecto", "A")]⟩] : Collection) ≠ [] →
        (generateGalaxy (fun q => q) (fun q => q) (fun _ => 0)
          [⟨"i1", "doc", [], [("Proyecto", "A")]⟩]).total_incidents =
          some ([⟨"i1", "doc", [], [("Proyecto", "A")]⟩] : Collection).length) ∧
      (([⟨"i1", "doc", [], [("Proyecto", "A")]⟩] : Collection) = [] →
        (generateGalaxy (fun q => q) (fun q => q) (fun _ => 0)
          [⟨"i1", "doc", [], [("Proyecto", "A")]⟩]).total_incidents = none) ∧
      get_galaxy_data (fun q => q) (fun q => q) (fun _ => 0)
        [⟨"i1", "doc", [], [("Proyecto", "A")]⟩]
        (some (Except.ok
          { success := true, error := none, suns := [],
            total_projects := some 1, total_incidents := some 1 })) true =
      { success := true, error := none, suns := [],
        total_projects := some 1, total_incidents := some 1 } :=
  C4_cache_invalidation_amended (fun q => q) (fun q => q) (fun _ => 0)
    [⟨"i1", "doc", [], [("Proyecto", "A")]⟩]
    (some (Except.ok
      { success := true, error := none, suns := [],
        total_projects := some 1, total_incidents := some 2 }))
    (some (Except.ok
      { success := true, error := none, suns := [],
        total_projects := some 1, total_incidents := some 1 }))
    { success := true, error := none, suns := [],
      total_projects := some 1, total_incidents := some 1 }
    (by
      intro d h
      injection h with h1
      injection h1 with h2
      subst h2
      decide)
    rfl rfl

/-- C4 counterexample: with an empty collection (M = 0) and a stale cache
(N = 1), `get_galaxy_data(use_cache=True)` regenerates into the no-data
error payload, whose `total_incidents` is absent — it does not report
`total_incidents = M` as the claim states. -/
theorem C4_counterexample :
    get_galaxy_data (fun q => q) (fun q => q) (fun _ => 0) []
        (some (Except.ok
          { success := true, error := none, suns := [],
            total_projects := some 1, total_incidents := some 1 })) true =
      { success := false,
        error := some "No hay datos en la base de datos. Carga incidencias primero.",
        suns := [], total_projects := none, total_incidents := none } ∧
      (get_galaxy_data (fun q => q) (fun q => q) (fun _ => 0) []
        (some (Except.ok
          { success := true, error := none, suns := [],
            total_projects := some 1, total_incidents := some 1 }))
        true).total_incidents ≠ some 0 :=
  ⟨rfl, by decide⟩

/-- C10: a sun's `(x, y, z)` is a function of the project name alone (via
modulo reductions of the name's content hash into angle, radius and vertical
offset), so equally-named projects get equal positions regardless of
insertion order or contained incidents. -/
theorem C10_sun_position_deterministic (cosF sinF : ℚ → ℚ)
    (hash : String → Nat) (c₁ c₂ : Collection) (s₁ s₂ : Sun)
    (h₁ : s₁ ∈ (generateGalaxy cosF sinF hash c₁).suns)
    (h₂ : s₂ ∈ (generateGalaxy cosF sinF hash c₂).suns)
    (hname : s₁.name = s₂.name) :
    s₁.x = s₂.x ∧ s₁.y = s₂.y ∧ s₁.z = s₂.z := by
  obtain ⟨hx1, hy1, hz1⟩ := sun_mem_position cosF sinF hash h₁
  obtain ⟨hx2, hy2, hz2⟩ := sun_mem_position cosF sinF hash h₂
  rw [hx1, hy1, hz1, hx2, hy2, hz2, hname]
  exact ⟨rfl, rfl, rfl⟩

/-- Witness for C10: project "A" appearing in two collections that differ in
insertion order and incident contents. -/
theorem C10_sun_position_deterministic_witness :
    ((generateGalaxy (fun q => q) (fun q => q + 1) (fun nm => nm.length)
        [⟨"i1", "d1", [], [("Proyecto", "A")]⟩]).suns.headD
      ⟨"", 0, 0, 0, 0, 0, [], false⟩).x =
      ((generateGalaxy (fun q => q) (fun q => q + 1) (fun nm => nm.length)
        [⟨"i9", "other", [], [("x", "y"), ("proyecto", "A")]⟩,
         ⟨"i10", "d", [], [("Proyecto", "A")]⟩]).suns.headD
        ⟨"", 0, 0, 0, 0, 0, [], false⟩).x ∧
    ((generateGalaxy (fun q => q) (fun q => q + 1) (fun nm => nm.length)
        [⟨"i1", "d1", [], [("Proyecto", "A")]⟩]).suns.headD
      ⟨"", 0, 0, 0, 0, 0, [], false⟩).y =
      ((generateGalaxy (fun q => q) (fun q => q + 1) (fun nm => nm.length)
        [⟨"i9", "other", [], [("x", "y"), ("proyecto", "A")]⟩,
         ⟨"i10", "d", [], [("Proyecto", "A")]⟩]).suns.headD
        ⟨"", 0, 0, 0, 0, 0, [], false⟩).y ∧
    ((generateGalaxy (fun q => q) (fun q => q + 1) (fun nm => nm.length)
        [⟨"i1", "d1", [], [("Proyecto", "A")]⟩]).suns.headD
      ⟨"", 0, 0, 0, 0, 0, [], false⟩).z =
      ((generateGalaxy (fun q => q) (fun q => q + 1) (fun nm => nm.length)
        [⟨"i9", "other", [], [("x", "y"), ("proyecto", "A")]⟩,
         ⟨"i10", "d", [], [("Proyecto", "A")]⟩]).suns.headD
        ⟨"", 0, 0, 0, 0, 0, [], false⟩).z :=
  C10_sun_position_deterministic (fun q => q) (fun q => q + 1)
    (fun nm => nm.length)
    [⟨"i1", "d1", [], [("Proyecto", "A")]⟩]
    [⟨"i9", "other", [], [("x", "y"), ("proyecto", "A")]⟩,
     ⟨"i10", "d", [], [("Proyecto", "A")]⟩] _ _
    (List.mem_cons_self _ _) (List.mem_cons_self _ _) rfl

/-- C9: `search_similar` never raises: when the store query raises, the
caller receives the original query, an error message, a traceback, and
`similar_incidents = []`. -/
theorem C9_search_error_payload (net : String → Option (List ℚ)) (q : String)
    (top_k : Nat) (filters : Option StrDict) (e : String) :
    search_similar net (fun _ _ _ => Except.error e) q top_k filters =
      { query := q, similar_incidents := [], total_found := none,
        search_time_ms := none, error := some ("Error en búsqueda: " ++ e),
        traceback := some e } := rfl

end Rag
